import Mathlib

/-!
Verification development for the scoring engine of the AI Opportunity &
Change Readiness dashboard (src/app.py).

The scoring engine is the function `compute_scores` (src/app.py lines
68-111): it copies the incoming data frame, coerces the five rating
columns to numbers (non-numeric and absent cells become 0), and adds two
derived columns, Priority Score and Readiness Score.  Real-valued
arithmetic is embedded with `ℚ`; every quantity the program manipulates
(integer ratings, half-step slider weights, the derived scores) is exact
rational arithmetic here.

The ranking views (src/app.py lines 187 and 243) sort the scored frame by
Priority Score descending with pandas `sort_values`; the tie-order
behaviour of that call is modelled separately below by a port of the
underlying numpy argsort routine.
-/

/-- Cell content of one of the five rating columns before coercion: a
numeric value, a non-numeric text (which `pd.to_numeric(errors="coerce")`
turns into NaN), or an absent/NaN cell. -/
inductive Cell where
  | num (q : ℚ)
  | text (s : String)
  | absent
deriving Repr, DecidableEq

/-- One row of the use-case table, with the columns of the seed data:
Use Case, the five rating columns, Owner, Notes (src/app.py lines 22-32). -/
structure UseCase where
  useCase : String
  businessValue : Cell
  technicalFeasibility : Cell
  dataReadiness : Cell
  changeImpact : Cell
  risk : Cell
  owner : String
  notes : String
deriving Repr, DecidableEq

/-- One row of the scored table returned by `compute_scores`: the rating
columns now hold the coerced numeric values (the source overwrites them in
place, line 86), plus the two derived columns. -/
structure ScoredUseCase where
  useCase : String
  businessValue : ℚ
  technicalFeasibility : ℚ
  dataReadiness : ℚ
  changeImpact : ℚ
  risk : ℚ
  owner : String
  notes : String
  priorityScore : ℚ
  readinessScore : ℚ
deriving Repr, DecidableEq

/-- Embedding of `pd.to_numeric(df[col], errors="coerce").fillna(0)`
applied to one cell (src/app.py line 86): numeric cells keep their value,
non-numeric and absent cells become 0. -/
def toNumericFillZero : Cell → ℚ
  | Cell.num q => q
  | Cell.text _ => 0
  | Cell.absent => 0

/-- Embedding of `compute_scores` (src/app.py lines 68-111) acting on one
row once the weight denominator has been fixed.  The five rating columns
are coerced (line 86), then the two derived columns are computed with the
formulas of lines 94-109; pandas evaluates those column expressions
elementwise, i.e. row by row. -/
def scoreRow (w_value w_feas w_data w_change w_risk weights_sum : ℚ)
    (row : UseCase) : ScoredUseCase :=
  let bv := toNumericFillZero row.businessValue
  let tf := toNumericFillZero row.technicalFeasibility
  let dr := toNumericFillZero row.dataReadiness
  let ci := toNumericFillZero row.changeImpact
  let rk := toNumericFillZero row.risk
  { useCase := row.useCase
    businessValue := bv
    technicalFeasibility := tf
    dataReadiness := dr
    changeImpact := ci
    risk := rk
    owner := row.owner
    notes := row.notes
    priorityScore :=
      (bv * w_value + tf * w_feas + dr * w_data - ci * w_change - rk * w_risk)
        / weights_sum
    readinessScore := (tf + dr + (5 - ci) + (5 - rk)) / 4 }

/-- Embedding of `compute_scores(df, w_value, w_feas, w_data, w_change,
w_risk)` (src/app.py lines 68-111).  The source first rebinds `df` to
`df.copy()` (line 76) so the frame of the caller is untouched, computes
`weights_sum` with the zero-denominator guard (lines 90-92), and applies
the column formulas, which act independently on each row. -/
def compute_scores (df : List UseCase)
    (w_value w_feas w_data w_change w_risk : ℚ) : List ScoredUseCase :=
  let weights_sum := w_value + w_feas + w_data + w_change + w_risk
  let weights_sum := if weights_sum = 0 then 1 else weights_sum
  df.map (scoreRow w_value w_feas w_data w_change w_risk weights_sum)

/-- A weight set as the spec groups the five slider values
(src/app.py lines 126-130). -/
structure WeightSet where
  w_value : ℚ
  w_feas : ℚ
  w_data : ℚ
  w_change : ℚ
  w_risk : ℚ
deriving Repr, DecidableEq

/-- The sum of the five weights of a weight set (src/app.py line 90). -/
def WeightSet.sum (w : WeightSet) : ℚ :=
  w.w_value + w.w_feas + w.w_data + w.w_change + w.w_risk

/-- The spec-level contract `score(useCases, weights)`: exactly
`compute_scores` with the weight set unpacked into the five parameters of
the source function. -/
def score (useCases : List UseCase) (weights : WeightSet) : List ScoredUseCase :=
  compute_scores useCases weights.w_value weights.w_feas weights.w_data
    weights.w_change weights.w_risk

/-- Effective denominator of the Priority Score: the sum of the five
weights, with the zero-denominator guard of src/app.py lines 91-92. -/
def effectiveWeightsSum (w : WeightSet) : ℚ :=
  if WeightSet.sum w = 0 then 1 else WeightSet.sum w

/-- Scaling a weight set by a scalar, multiplying all five weights. -/
def WeightSet.scale (c : ℚ) (w : WeightSet) : WeightSet :=
  { w_value := c * w.w_value, w_feas := c * w.w_feas, w_data := c * w.w_data,
    w_change := c * w.w_change, w_risk := c * w.w_risk }

/-- Selector for one of the five rating columns of a row. -/
inductive RatingField where
  | businessValue
  | technicalFeasibility
  | dataReadiness
  | changeImpact
  | risk
deriving Repr, DecidableEq

/-- Replace the content of one rating column of a row. -/
def setRating (f : RatingField) (c : Cell) (u : UseCase) : UseCase :=
  match f with
  | RatingField.businessValue => { u with businessValue := c }
  | RatingField.technicalFeasibility => { u with technicalFeasibility := c }
  | RatingField.dataReadiness => { u with dataReadiness := c }
  | RatingField.changeImpact => { u with changeImpact := c }
  | RatingField.risk => { u with risk := c }

/-!
Model of the ranking views.  Lines 187 and 243 of src/app.py rank the
scored frame with `scored_df.sort_values("Priority Score", ascending=False)`.
pandas routes a single-column sort through `nargsort`
(pandas/core/sorting.py): for a descending sort it reverses the values and
the index array, argsorts the reversed values with the requested kind
(the default is `kind="quicksort"`), gathers the reversed indices, and
reverses the result.  The argsort kernel for `kind="quicksort"` is the numpy
introsort (`aquicksort_` in numpy npysort/quicksort.cpp): median-of-three
quicksort partitioning down to partitions of at most `SMALL_QUICKSORT = 15`
elements, insertion sort below that, and an argument heapsort
(`aheapsort_`) once the depth budget `2 * msb(n)` is spent.  The port
below follows that code loop by loop; every loop carries a fuel argument
(returning the current state when it runs out) and the top-level entry
point supplies a budget that the evaluated inputs never exhaust. -/

/-- Comparison used by the numpy sort kernels on the embedded values. -/
def npLess (a b : ℚ) : Bool := decide (a < b)

/-- Swap of two slots of the index array (std::swap on tosort entries). -/
def aswap (t : Array Nat) (i j : Nat) : Array Nat :=
  let vi := t.getD i 0
  let vj := t.getD j 0
  (t.setD i vj).setD j vi

/-- Value indirection v[*pi] of the argsort kernels. -/
def valAt (v : Array ℚ) (t : Array Nat) (i : Nat) : ℚ := v.getD (t.getD i 0) 0

/-- Scan loop do ++pi while less(v[*pi], vp) of the partition step. -/
def scanUp (v : Array ℚ) (t : Array Nat) (vp : ℚ) : Nat → Nat → Nat
  | 0, pi => pi + 1
  | fuel+1, pi =>
    if npLess (valAt v t (pi + 1)) vp then scanUp v t vp fuel (pi + 1) else pi + 1

/-- Scan loop do --pj while less(vp, v[*pj]) of the partition step. -/
def scanDown (v : Array ℚ) (t : Array Nat) (vp : ℚ) : Nat → Nat → Nat
  | 0, pj => pj - 1
  | fuel+1, pj =>
    if npLess vp (valAt v t (pj - 1)) then scanDown v t vp fuel (pj - 1) else pj - 1

/-- Inner partition exchange loop of aquicksort: advance both scans and
swap until the cursors cross, returning the final pi cursor. -/
def partScan (v : Array ℚ) (vp : ℚ) : Nat → Array Nat → Nat → Nat → Array Nat × Nat
  | 0, t, pi, _ => (t, pi)
  | fuel+1, t, pi, pj =>
    let pi2 := scanUp v t vp (fuel + 1) pi
    let pj2 := scanDown v t vp (fuel + 1) pj
    if pj2 ≤ pi2 then (t, pi2)
    else partScan v vp fuel (aswap t pi2 pj2) pi2 pj2

/-- Shift loop of the insertion sort: move strictly greater entries one
slot right, returning the insertion position. -/
def insShift (v : Array ℚ) (vp : ℚ) (pl : Nat) : Nat → Array Nat → Nat → Array Nat × Nat
  | 0, t, pj => (t, pj)
  | fuel+1, t, pj =>
    if pl < pj && npLess vp (valAt v t (pj - 1)) then
      insShift v vp pl fuel (t.setD pj (t.getD (pj - 1) 0)) (pj - 1)
    else (t, pj)

/-- Outer loop of the argument insertion sort over t[pl..pr]. -/
def insLoop (v : Array ℚ) (pl pr : Nat) : Nat → Array Nat → Nat → Array Nat
  | 0, t, _ => t
  | fuel+1, t, pi =>
    if pi ≤ pr then
      let vi := t.getD pi 0
      let vp := v.getD vi 0
      let res := insShift v vp pl (fuel + 1) t pi
      insLoop v pl pr fuel (res.1.setD res.2 vi) (pi + 1)
    else t

/-- Argument insertion sort of the range t[pl..pr], as aquicksort runs it
on partitions of at most SMALL_QUICKSORT elements. -/
def insSortRange (v : Array ℚ) (t : Array Nat) (pl pr fuel : Nat) : Array Nat :=
  insLoop v pl pr fuel t (pl + 1)

/-- One-based read a[k] of aheapsort, whose local a points one slot before
the start of the sorted range. -/
def haGet (t : Array Nat) (off k : Nat) : Nat := t.getD (off + k - 1) 0

/-- One-based write a[k] of aheapsort. -/
def haSet (t : Array Nat) (off k x : Nat) : Array Nat := t.setD (off + k - 1) x

/-- Sift-down loop shared by both phases of aheapsort. -/
def siftDown (v : Array ℚ) (off tmp n : Nat) : Nat → Array Nat → Nat → Nat → Array Nat
  | 0, t, i, _ => haSet t off i tmp
  | fuel+1, t, i, j =>
    if j ≤ n then
      let j := if j < n && npLess (v.getD (haGet t off j) 0) (v.getD (haGet t off (j + 1)) 0)
               then j + 1 else j
      if npLess (v.getD tmp 0) (v.getD (haGet t off j) 0) then
        siftDown v off tmp n fuel (haSet t off i (haGet t off j)) j (j + j)
      else haSet t off i tmp
    else haSet t off i tmp

/-- Heap construction phase of aheapsort (l from n/2 down to 1). -/
def heapBuild (v : Array ℚ) (off n : Nat) : Nat → Array Nat → Nat → Array Nat
  | 0, t, _ => t
  | fuel+1, t, l =>
    if l = 0 then t
    else
      let tmp := haGet t off l
      let t := siftDown v off tmp n (fuel + 1) t l (l * 2)
      heapBuild v off n fuel t (l - 1)

/-- Extraction phase of aheapsort (n down to 2). -/
def heapExtract (v : Array ℚ) (off : Nat) : Nat → Array Nat → Nat → Array Nat
  | 0, t, _ => t
  | fuel+1, t, n =>
    if n ≤ 1 then t
    else
      let tmp := haGet t off n
      let t := haSet t off n (haGet t off 1)
      let n := n - 1
      let t := siftDown v off tmp n (fuel + 1) t 1 2
      heapExtract v off fuel t n

/-- Argument heapsort of n entries starting at offset off, the fallback
aquicksort applies when the depth budget runs out. -/
def aheapsort (v : Array ℚ) (t : Array Nat) (off n fuel : Nat) : Array Nat :=
  heapExtract v off fuel (heapBuild v off n fuel t (n / 2)) n

/-- Stack entry of aquicksort: a pending partition with its depth budget. -/
structure QSFrame where
  pl : Nat
  pr : Nat
  cdepth : Int
deriving Repr, DecidableEq

/-- Running state of aquicksort: the index array, the current partition,
its depth budget, and the stack of pending partitions. -/
structure QSState where
  tosort : Array Nat
  pl : Nat
  pr : Nat
  cdepth : Int
  stack : List QSFrame
deriving Repr, DecidableEq

/-- Partitioning while-loop of aquicksort: while the current partition
holds more than SMALL_QUICKSORT = 15 entries, pick the median-of-three
pivot, swap it before the right sentinel, run the exchange scan, restore
the pivot, push the larger side (with a decremented depth budget) and
continue with the smaller. -/
def partWhile (v : Array ℚ) : Nat → QSState → QSState
  | 0, s => s
  | fuel+1, s =>
    if 15 < s.pr - s.pl then
      let t := s.tosort
      let pl := s.pl
      let pr := s.pr
      let pm := pl + (pr - pl) / 2
      let t := if npLess (valAt v t pm) (valAt v t pl) then aswap t pm pl else t
      let t := if npLess (valAt v t pr) (valAt v t pm) then aswap t pr pm else t
      let t := if npLess (valAt v t pm) (valAt v t pl) then aswap t pm pl else t
      let vp := valAt v t pm
      let t := aswap t pm (pr - 1)
      let res := partScan v vp (fuel + 1) t pl (pr - 1)
      let t := res.1
      let pi := res.2
      let t := aswap t pi (pr - 1)
      if pi - pl < pr - pi then
        partWhile v fuel
          { tosort := t, pl := pl, pr := pi - 1, cdepth := s.cdepth - 1,
            stack := ⟨pi + 1, pr, s.cdepth - 1⟩ :: s.stack }
      else
        partWhile v fuel
          { tosort := t, pl := pi + 1, pr := pr, cdepth := s.cdepth - 1,
            stack := ⟨pl, pi - 1, s.cdepth - 1⟩ :: s.stack }
    else s

/-- Outer loop of aquicksort: heapsort the partition when its depth budget
is negative, otherwise partition down to small ranges and insertion-sort
them, then pop the next pending partition. -/
def aquicksortLoop (v : Array ℚ) : Nat → QSState → Array Nat
  | 0, s => s.tosort
  | fuel+1, s =>
    if s.cdepth < 0 then
      let t := aheapsort v s.tosort s.pl (s.pr - s.pl + 1) (fuel + 1)
      match s.stack with
      | [] => t
      | f :: stk =>
        aquicksortLoop v fuel
          { tosort := t, pl := f.pl, pr := f.pr, cdepth := f.cdepth, stack := stk }
    else
      let s2 := partWhile v (fuel + 1) s
      let t := insSortRange v s2.tosort s2.pl s2.pr (fuel + 1)
      match s2.stack with
      | [] => t
      | f :: stk =>
        aquicksortLoop v fuel
          { tosort := t, pl := f.pl, pr := f.pr, cdepth := f.cdepth, stack := stk }

/-- Fuelled most-significant-bit position, npy_get_msb. -/
def msbAux : Nat → Nat → Nat
  | 0, _ => 0
  | f+1, n => if n ≤ 1 then 0 else msbAux f (n / 2) + 1

/-- Position of the most significant bit of n (npy_get_msb). -/
def npyGetMsb (n : Nat) : Nat := msbAux n n

/-- Embedding of numpy argsort with the default kind="quicksort": start
from the identity index array with depth budget 2 * msb(n). -/
def np_argsort (v : Array ℚ) : Array Nat :=
  let n := v.size
  if n = 0 then Array.range 0
  else
    aquicksortLoop v (n * n + 64)
      { tosort := Array.range n, pl := 0, pr := n - 1,
        cdepth := (npyGetMsb n) * 2, stack := [] }

/-- Embedding of pandas nargsort for a descending single-column sort with
no missing keys (pandas/core/sorting.py): reverse the values and the
identity index, argsort the reversed values, gather, reverse back. -/
def nargsort_desc (items : List ℚ) : List Nat :=
  let n := items.length
  let p := (np_argsort (items.reverse).toArray).toList
  (p.map (fun k => n - 1 - k)).reverse

/-- Embedding of scored_df.sort_values("Priority Score", ascending=False)
(src/app.py line 187): reorder the scored rows by the pandas indexer. -/
def sortValuesPriorityDesc (df : List ScoredUseCase) : List ScoredUseCase :=
  (nargsort_desc (df.map ScoredUseCase.priorityScore)).filterMap (fun i => df[i]?)

/-- First row of the hardcoded seed data (src/app.py lines 23-32), which
is also the worked example of the formula-exactness worked example of the spec. -/
def demoRow : UseCase :=
  { useCase := "Intelligent document triage for claims"
    businessValue := Cell.num 5
    technicalFeasibility := Cell.num 3
    dataReadiness := Cell.num 3
    changeImpact := Cell.num 4
    risk := Cell.num 3
    owner := "Operations"
    notes := "High cost savings; requires integration with core systems." }

/-- Default slider weights of the sidebar (src/app.py lines 126-130). -/
def demoWeights : WeightSet :=
  { w_value := 3, w_feas := 5/2, w_data := 5/2, w_change := 2, w_risk := 2 }

/-- Unfolding lemma: the engine maps `scoreRow` with the effective weight
sum over the rows. -/
theorem score_eq_map (us : List UseCase) (w : WeightSet) :
    score us w =
      us.map (scoreRow w.w_value w.w_feas w.w_data w.w_change w.w_risk
        (effectiveWeightsSum w)) := rfl

/-- C1: for every input row and every weight set, the computed Priority
Score equals the weighted sum of the coerced ratings (business value,
feasibility and data readiness added, change impact and risk subtracted)
divided by the sum of the five weights, replaced by 1 when that sum is 0;
in particular the seed row with ratings 5, 3, 3, 4, 3 under the default
weights 3, 2.5, 2.5, 2, 2 scores Priority 16/12 and Readiness 9/4 = 2.25. -/
theorem priority_formula_exact (us : List UseCase) (w : WeightSet) (i : Nat) :
    ((score us w).map ScoredUseCase.priorityScore)[i]? =
      (us[i]?).map (fun u =>
        (toNumericFillZero u.businessValue * w.w_value
            + toNumericFillZero u.technicalFeasibility * w.w_feas
            + toNumericFillZero u.dataReadiness * w.w_data
            - toNumericFillZero u.changeImpact * w.w_change
            - toNumericFillZero u.risk * w.w_risk)
          / (if w.w_value + w.w_feas + w.w_data + w.w_change + w.w_risk = 0 then 1
             else w.w_value + w.w_feas + w.w_data + w.w_change + w.w_risk)) ∧
    (score [demoRow] demoWeights).map ScoredUseCase.priorityScore = [16/12] ∧
    (score [demoRow] demoWeights).map ScoredUseCase.readinessScore = [9/4] := by
  refine ⟨?_, ?_, ?_⟩
  · rcases h : us[i]? with _ | u
    · simp [score, compute_scores, List.getElem?_map, h]
    · simp [score, compute_scores, List.getElem?_map, h, scoreRow, WeightSet.sum]
  · norm_num [score, compute_scores, scoreRow, demoRow, demoWeights, toNumericFillZero]
  · norm_num [score, compute_scores, scoreRow, demoRow, demoWeights, toNumericFillZero]

/-- Labels for seventeen otherwise identical rows: one more row than the
largest partition the numpy introsort still hands to its stable insertion
sort. -/
def tieNames : List String :=
  ["a", "b", "c", "d", "e", "f", "g", "h", "i", "j", "k", "l", "m", "n", "o", "p", "q"]

/-- A copy of the seed row carrying a given label. -/
def tieRow (nm : String) : UseCase := { demoRow with useCase := nm }

/-- Seventeen rows with identical ratings, hence identical Priority
Scores under any weights. -/
def tieTable : List UseCase := tieNames.map tieRow

set_option maxRecDepth 1000000 in
unseal Rat.mul Rat.inv Rat.add Rat.sub in
/-- C2: the spec requires the ranked view to be a stable descending sort
(ties retain input order), but the code ranks with
`sort_values("Priority Score", ascending=False)` and the pandas default
`kind="quicksort"`, which numpy documents as unstable.  Evaluating the
ported sort on seventeen rows with identical Priority Scores (all 16/12):
row "b" precedes row "j" in the input, yet the ranked output places "j"
before "b" — the introsort partition step swaps tied entries as soon as
the array exceeds 15 elements.  Tables of at most 15 rows stay in the
insertion-sort regime and keep input order. -/
theorem ranking_tie_order_lost :
    ((score tieTable demoWeights).map ScoredUseCase.priorityScore
        = List.replicate 17 (16/12 : ℚ)) ∧
    (tieTable.map UseCase.useCase).indexOf "b"
        < (tieTable.map UseCase.useCase).indexOf "j" ∧
    ((sortValuesPriorityDesc (score tieTable demoWeights)).map
          ScoredUseCase.useCase).indexOf "j"
        < ((sortValuesPriorityDesc (score tieTable demoWeights)).map
          ScoredUseCase.useCase).indexOf "b" := by
  decide

/-- C3: scoring with all five weights zero does not fail (the zero
denominator is replaced by 1) and yields Priority Score 0 for every row. -/
theorem zero_weights_priority_zero (us : List UseCase) :
    (score us ⟨0, 0, 0, 0, 0⟩).map ScoredUseCase.priorityScore =
      List.replicate us.length 0 := by
  rw [score_eq_map, List.map_map, List.eq_replicate_iff]
  refine ⟨by simp, ?_⟩
  intro b hb
  obtain ⟨u, _, hu⟩ := List.mem_map.1 hb
  simp [scoreRow, effectiveWeightsSum, WeightSet.sum] at hu
  exact hu.symm

/-- C4: the scoring function is total — coercion of a rating cell always
produces a number — and a row with a non-numeric (or absent) rating field
produces exactly the same scored output as the same row with that field
set to 0, wherever the row sits in the sequence. -/
theorem nonnumeric_coerces_like_zero (pre post : List UseCase) (u : UseCase)
    (w : WeightSet) (f : RatingField) (s : String) :
    score (pre ++ setRating f (Cell.text s) u :: post) w =
      score (pre ++ setRating f (Cell.num 0) u :: post) w ∧
    score (pre ++ setRating f Cell.absent u :: post) w =
      score (pre ++ setRating f (Cell.num 0) u :: post) w := by
  have key : ∀ c : Cell, toNumericFillZero c = 0 →
      scoreRow w.w_value w.w_feas w.w_data w.w_change w.w_risk
          (effectiveWeightsSum w) (setRating f c u) =
        scoreRow w.w_value w.w_feas w.w_data w.w_change w.w_risk
          (effectiveWeightsSum w) (setRating f (Cell.num 0) u) := by
    intro c hc
    have h0 : toNumericFillZero (Cell.num 0) = 0 := rfl
    cases f <;> simp [scoreRow, setRating, hc, h0]
  refine ⟨?_, ?_⟩
  · simp [score_eq_map, List.map_append, key (Cell.text s) rfl]
  · simp [score_eq_map, List.map_append, key Cell.absent rfl]

/-- C5: for every input row the computed Readiness Score equals
(technicalFeasibility + dataReadiness + (5 - changeImpact) + (5 - risk)) / 4
on the coerced ratings, and the value is independent of the weight set:
any two weight sets assign every row the same Readiness Score. -/
theorem readiness_formula_weight_independent :
    (∀ (us : List UseCase) (w : WeightSet) (i : Nat),
      ((score us w).map ScoredUseCase.readinessScore)[i]? =
        (us[i]?).map (fun u =>
          (toNumericFillZero u.technicalFeasibility
              + toNumericFillZero u.dataReadiness
              + (5 - toNumericFillZero u.changeImpact)
              + (5 - toNumericFillZero u.risk)) / 4)) ∧
    (∀ (us : List UseCase) (w1 w2 : WeightSet),
      (score us w1).map ScoredUseCase.readinessScore =
        (score us w2).map ScoredUseCase.readinessScore) := by
  have h : ∀ (us : List UseCase) (w : WeightSet) (i : Nat),
      ((score us w).map ScoredUseCase.readinessScore)[i]? =
        (us[i]?).map (fun u =>
          (toNumericFillZero u.technicalFeasibility
              + toNumericFillZero u.dataReadiness
              + (5 - toNumericFillZero u.changeImpact)
              + (5 - toNumericFillZero u.risk)) / 4) := by
    intro us w i
    rcases hu : us[i]? with _ | u
    · simp [score, compute_scores, List.getElem?_map, hu]
    · simp [score, compute_scores, List.getElem?_map, hu, scoreRow]
  refine ⟨h, ?_⟩
  intro us w1 w2
  apply List.ext_getElem?
  intro i
  rw [List.getElem?_map, ← List.getElem?_map (ScoredUseCase.readinessScore), h us w1 i]
  rw [List.getElem?_map, ← List.getElem?_map (ScoredUseCase.readinessScore), h us w2 i]

/-- C6: for a row whose five already-numeric ratings all lie in [1, 5],
the computed Readiness Score lies in [0, 5]. -/
theorem readiness_score_in_range (us : List UseCase) (w : WeightSet) (i : Nat)
    (u : UseCase) (hu : us[i]? = some u)
    (bv tf dr ci rk : ℚ)
    (hbv : u.businessValue = Cell.num bv)
    (htf : u.technicalFeasibility = Cell.num tf)
    (hdr : u.dataReadiness = Cell.num dr)
    (hci : u.changeImpact = Cell.num ci)
    (hrk : u.risk = Cell.num rk)
    (hbv1 : 1 ≤ bv) (hbv5 : bv ≤ 5)
    (htf1 : 1 ≤ tf) (htf5 : tf ≤ 5)
    (hdr1 : 1 ≤ dr) (hdr5 : dr ≤ 5)
    (hci1 : 1 ≤ ci) (hci5 : ci ≤ 5)
    (hrk1 : 1 ≤ rk) (hrk5 : rk ≤ 5) :
    ∃ r : ScoredUseCase, (score us w)[i]? = some r ∧
      0 ≤ r.readinessScore ∧ r.readinessScore ≤ 5 := by
  have e : (scoreRow w.w_value w.w_feas w.w_data w.w_change w.w_risk
      (effectiveWeightsSum w) u).readinessScore =
      (tf + dr + (5 - ci) + (5 - rk)) / 4 := by
    simp [scoreRow, htf, hdr, hci, hrk, toNumericFillZero]
  refine ⟨scoreRow w.w_value w.w_feas w.w_data w.w_change w.w_risk
    (effectiveWeightsSum w) u, ?_, ?_, ?_⟩
  · rw [score_eq_map, List.getElem?_map, hu]
    rfl
  · rw [e]
    apply div_nonneg _ (by norm_num)
    linarith
  · rw [e, div_le_iff₀ (by norm_num : (0:ℚ) < 4)]
    linarith

/-- Witness for the readiness range: the seed row has numeric ratings
5, 3, 3, 4, 3, all inside [1, 5], and its Readiness Score stays in [0, 5]. -/
theorem readiness_score_in_range_witness :
    ∃ r : ScoredUseCase, (score [demoRow] demoWeights)[0]? = some r ∧
      0 ≤ r.readinessScore ∧ r.readinessScore ≤ 5 :=
  readiness_score_in_range [demoRow] demoWeights 0 demoRow rfl 5 3 3 4 3
    rfl rfl rfl rfl rfl
    (by norm_num) (by norm_num) (by norm_num) (by norm_num) (by norm_num)
    (by norm_num) (by norm_num) (by norm_num) (by norm_num) (by norm_num)

/-- C7: the engine returns one output row per input row, row i of the
output is the scoring transform of row i of the input, and the empty
sequence maps to the empty sequence for every weight set. -/
theorem score_length_order_empty :
    (∀ (us : List UseCase) (w : WeightSet), (score us w).length = us.length) ∧
    (∀ (us : List UseCase) (w : WeightSet) (i : Nat),
      (score us w)[i]? = (us[i]?).map
        (scoreRow w.w_value w.w_feas w.w_data w.w_change w.w_risk
          (effectiveWeightsSum w))) ∧
    (∀ w : WeightSet, score [] w = []) := by
  refine ⟨?_, ?_, fun w => rfl⟩
  · intro us w
    rw [score_eq_map]
    exact List.length_map us _
  · intro us w i
    rw [score_eq_map, List.getElem?_map]

/-- Pairing of the frame of the caller with the result of the engine: line 76 of
src/app.py rebinds the parameter to `df.copy()` before any column write,
so the sequence the caller passed in is left exactly as it was; the
embedding returns it next to the scored output so the frame condition can
be stated. -/
def compute_scores_callerFrame (df : List UseCase)
    (w_value w_feas w_data w_change w_risk : ℚ) :
    List UseCase × List ScoredUseCase :=
  (df, compute_scores df w_value w_feas w_data w_change w_risk)

/-- C8: the scoring function is deterministic — identical use-case
sequence and weight set give identical outputs — and side-effect-free:
the input sequence of the caller is unchanged by the call (the source copies
the frame at line 76 before writing any column). -/
theorem score_pure_deterministic :
    (∀ (us : List UseCase) (w : WeightSet), score us w = score us w) ∧
    (∀ (us : List UseCase) (w : WeightSet),
      (compute_scores_callerFrame us w.w_value w.w_feas w.w_data
        w.w_change w.w_risk).1 = us) :=
  ⟨fun _ _ => rfl, fun _ _ => rfl⟩

/-- C9: Priority Score is invariant under positive rescaling of the
weights, provided the original weights have nonzero sum. -/
theorem priority_weight_scale_invariant (us : List UseCase) (w : WeightSet)
    (c : ℚ) (hc : 0 < c) (hw : WeightSet.sum w ≠ 0) :
    (score us (WeightSet.scale c w)).map ScoredUseCase.priorityScore =
      (score us w).map ScoredUseCase.priorityScore := by
  have hcs : WeightSet.sum (WeightSet.scale c w) = c * WeightSet.sum w := by
    simp [WeightSet.sum, WeightSet.scale]
    ring
  have hc0 : c ≠ 0 := ne_of_gt hc
  have hcs0 : c * WeightSet.sum w ≠ 0 := mul_ne_zero hc0 hw
  have heff : effectiveWeightsSum (WeightSet.scale c w) = c * WeightSet.sum w := by
    rw [effectiveWeightsSum, hcs, if_neg hcs0]
  have heff2 : effectiveWeightsSum w = WeightSet.sum w := by
    rw [effectiveWeightsSum, if_neg hw]
  rw [score_eq_map, score_eq_map, List.map_map, List.map_map]
  apply List.map_congr_left
  intro u _
  simp [Function.comp, scoreRow, heff, heff2,
    show (WeightSet.scale c w).w_value = c * w.w_value from rfl,
    show (WeightSet.scale c w).w_feas = c * w.w_feas from rfl,
    show (WeightSet.scale c w).w_data = c * w.w_data from rfl,
    show (WeightSet.scale c w).w_change = c * w.w_change from rfl,
    show (WeightSet.scale c w).w_risk = c * w.w_risk from rfl]
  rw [div_eq_div_iff hcs0 hw]
  ring

/-- Witness for scale invariance: doubling the default weights leaves the
Priority Score of the seed row unchanged. -/
theorem priority_weight_scale_invariant_witness :
    (0:ℚ) < 2 ∧ WeightSet.sum demoWeights ≠ 0 ∧
    (score [demoRow] (WeightSet.scale 2 demoWeights)).map
        ScoredUseCase.priorityScore =
      (score [demoRow] demoWeights).map ScoredUseCase.priorityScore :=
  ⟨by norm_num, by norm_num [WeightSet.sum, demoWeights],
    priority_weight_scale_invariant [demoRow] demoWeights 2 (by norm_num)
      (by norm_num [WeightSet.sum, demoWeights])⟩

/-- C10: scoring preserves the Use Case, Owner and Notes columns of every
row and rewrites the five rating columns with their coerced numeric
values, so a non-numeric or absent input rating appears as 0 in the
output row rather than as its original content. -/
theorem score_frame_preservation (us : List UseCase) (w : WeightSet) (i : Nat) :
    ((score us w)[i]?).map (fun r => (r.useCase, r.owner, r.notes)) =
      (us[i]?).map (fun u => (u.useCase, u.owner, u.notes)) ∧
    ((score us w)[i]?).map (fun r =>
        (r.businessValue, r.technicalFeasibility, r.dataReadiness,
          r.changeImpact, r.risk)) =
      (us[i]?).map (fun u =>
        (toNumericFillZero u.businessValue,
          toNumericFillZero u.technicalFeasibility,
          toNumericFillZero u.dataReadiness,
          toNumericFillZero u.changeImpact,
          toNumericFillZero u.risk)) ∧
    (∀ s : String, toNumericFillZero (Cell.text s) = 0) ∧
    toNumericFillZero Cell.absent = 0 := by
  refine ⟨?_, ?_, fun s => rfl, rfl⟩ <;>
  · rcases hu : us[i]? with _ | u
    · simp [score_eq_map, List.getElem?_map, hu]
    · simp [score_eq_map, List.getElem?_map, hu, scoreRow]
